import Mathlib

/-!
Verification of the cross-chain anchoring core of the TracePost-larvaeChain
back end, as a shallow embedding in Lean 4.

Embedded source files:
* back-end/app/oracle/bridge.py      (ChainBridgeOracle, ChainBridgeManager)
* back-end/app/blockchain/vietnamchain.py  (VietnamChainClient)
* back-end/app/blockchain/ethereum.py      (EthereumClient)
* back-end/app/blockchain/base.py          (BlockchainClient._make_request)

Modelling conventions:
* Python is dynamically typed; the on-chain event identifier stored in the
  bridge's `processed_events` set is an opaque value, so it is modelled by a
  type parameter `ι` with decidable equality.  Its f-string rendering
  (used inside `_generate_bridge_id` and the relay hash) is supplied by the
  context as `reprId : ι → String`.
* External effects (SHA-256 from hashlib, `time.time()`,
  `datetime.utcnow().isoformat()`, and the target client's
  `register_event` coroutine) are inputs of the embedding, collected in
  `BridgeCtx`.  `register` returns `Except PyError String`: `.ok h` models a
  normal return of transaction handle `h`, `.error e` models a raised Python
  exception `e`.
* A CPython `set` guarantees membership semantics but NOT any iteration
  order; `list(s)` may enumerate the elements in any order (string hashes
  are even randomized per process).  The set is therefore modelled as a
  duplicate-free list recording insertion order, and every place the source
  enumerates the set (`list(self.processed_events)` in the trim step of
  `process_data`) takes an enumeration function `enum` as a parameter;
  any permutation is a legal instantiation of `enum`.
* Machine integers do not appear: Python integers are unbounded, so block
  numbers are `Int` and sizes are `Nat`.
-/

namespace TracePost

/-- Python exception values distinguished by the claims: `BlockchainError`
(app/core/exceptions.py), `ValueError`, and any other exception type. -/
inductive PyError where
  | blockchainError (msg : String)
  | valueError (msg : String)
  | otherError (msg : String)
  deriving Repr, DecidableEq

/-- Does a raised exception have type `BlockchainError`? -/
def PyError.isBlockchainError : PyError → Bool
  | .blockchainError _ => true
  | _ => false

/-- The event dict built by `_get_recent_events` and consumed by
`process_data` / `_relay_event` (bridge.py).  Field names mirror the dict
keys.  `bridge_id` is `Option` because `_relay_event` reads it with
`event.get("bridge_id")`. -/
structure BridgeEvent (ι : Type) where
  event_id : ι
  shipment_id : String
  event_type : String
  block_number : Int
  transaction_hash : String
  source_chain : String
  timestamp : String
  bridge_id : Option String
  deriving Repr, DecidableEq

/-- The keyword arguments `_relay_event` passes to
`target_client.register_event`. -/
structure RegisterEventArgs where
  shipment_id : String
  event_id : String
  event_type : String
  data_hash : String
  metadata : String
  deriving Repr, DecidableEq

/-- The per-event result dict returned by `_relay_event` (bridge.py).
Keys present in only one of the two branches are `Option`s. -/
structure RelayResult (ι : Type) where
  original_event_id : ι
  shipment_id : String
  source_chain : String
  target_chain : String
  status : String
  bridge_id : Option String
  target_tx_hash : Option String
  error : Option String
  deriving Repr, DecidableEq

/-- Mutable state of a `ChainBridgeOracle` instance (bridge.py `__init__`):
configuration plus the fetch cursor and the in-memory dedup set.
`processed_events` is the Python set, recorded in insertion order. -/
structure BridgeState (ι : Type) where
  source_chain : String
  target_chain : String
  event_types : Option (List String)
  confirmation_blocks : Int
  last_processed_block : Option Int
  processed_events : List ι
  deriving Repr, DecidableEq

/-- Ambient inputs of one oracle cycle: the hash function from `hashlib`,
the target client's `register_event`, `int(time.time())` and
`datetime.utcnow().isoformat()`, and the rendering of event-id values. -/
structure BridgeCtx (ι : Type) where
  sha256hex : String → String
  register : RegisterEventArgs → Except PyError String
  timestamp : Int
  now : String
  reprId : ι → String

/-- Python `x or y` for an optional string: `None` and `""` are falsy. -/
def pyOrStr (x : Option String) (y : String) : String :=
  match x with
  | none => y
  | some s => if s = "" then y else s

/-- Python `x or y` for an optional integer: `None` and `0` are falsy
(this is exactly the expression `self.last_processed_block or
(current_block - 1000)` in `_get_recent_events`). -/
def pyOrInt (x : Option Int) (y : Int) : Int :=
  match x with
  | none => y
  | some v => if v = 0 then y else v

/-- `ChainBridgeOracle._generate_bridge_id` (bridge.py): SHA-256 over
`f"{original_id}:{source}:{target}:{timestamp}"`, truncated to 16 hex
chars and wrapped as `bridge_{source}_{hash16}`. -/
def generate_bridge_id {ι : Type} (ctx : BridgeCtx ι) (st : BridgeState ι)
    (original_id : ι) : String :=
  let bridge_data := ctx.reprId original_id ++ ":" ++ st.source_chain ++ ":" ++
    st.target_chain ++ ":" ++ toString ctx.timestamp
  let bridge_hash := String.mk ((ctx.sha256hex bridge_data).data.take 16)
  "bridge_" ++ st.source_chain ++ "_" ++ bridge_hash

/-- The `json.dumps` of the provenance-metadata dict built in
`_relay_event`, for the fixed key set used there (keys in insertion
order, values rendered as JSON strings / integer). -/
def metadata_json (source_chain source_tx_hash : String) (source_block : Int)
    (bridge_id original_event_id bridged_at : String) : String :=
  "\x7b\"source_chain\": \"" ++ source_chain ++
  "\", \"source_tx_hash\": \"" ++ source_tx_hash ++
  "\", \"source_block\": " ++ toString source_block ++
  ", \"bridge_id\": \"" ++ bridge_id ++
  "\", \"original_event_id\": \"" ++ original_event_id ++
  "\", \"bridged_at\": \"" ++ bridged_at ++ "\"\x7d"

namespace ChainBridgeOracle

/-- The argument record of the single `target_client.register_event` call
made by `_relay_event` (bridge.py): the bridge id is taken from the event
(or freshly generated), the event type gets the `BRIDGED_` tag, and the
data hash is SHA-256 of `f"{shipment_id}:{event_id}:{event_type}:{bridge_id}"`. -/
def relay_register_args {ι : Type} (ctx : BridgeCtx ι) (st : BridgeState ι)
    (event : BridgeEvent ι) : RegisterEventArgs :=
  let event_id := event.event_id
  let bridge_id := pyOrStr event.bridge_id (generate_bridge_id ctx st event_id)
  let metadata := metadata_json st.source_chain event.transaction_hash
    event.block_number bridge_id (ctx.reprId event_id) ctx.now
  let data_str := event.shipment_id ++ ":" ++ ctx.reprId event_id ++ ":" ++
    event.event_type ++ ":" ++ bridge_id
  { shipment_id := event.shipment_id
    event_id := bridge_id
    event_type := "BRIDGED_" ++ event.event_type
    data_hash := ctx.sha256hex data_str
    metadata := metadata }

/-- `ChainBridgeOracle._relay_event` (bridge.py).  Registers the event on
the target chain; an exception raised by `register_event` is caught by the
function's own `except` block and turned into an error result, so
`_relay_event` itself never raises. -/
def relay_event {ι : Type} (ctx : BridgeCtx ι) (st : BridgeState ι)
    (event : BridgeEvent ι) : RelayResult ι :=
  let bridge_id := pyOrStr event.bridge_id (generate_bridge_id ctx st event.event_id)
  match ctx.register (relay_register_args ctx st event) with
  | .ok tx_hash =>
      { original_event_id := event.event_id
        shipment_id := event.shipment_id
        source_chain := st.source_chain
        target_chain := st.target_chain
        status := "success"
        bridge_id := some bridge_id
        target_tx_hash := some tx_hash
        error := none }
  | .error e =>
      { original_event_id := event.event_id
        shipment_id := event.shipment_id
        source_chain := st.source_chain
        target_chain := st.target_chain
        status := "error"
        bridge_id := none
        target_tx_hash := none
        error := some (match e with
          | .blockchainError m => m
          | .valueError m => m
          | .otherError m => m) }

/-- The `for event in events` loop body of `process_data` (bridge.py),
threading the accumulated result list and the dedup set: an event whose id
is already in the set is skipped (no result recorded); otherwise
`_relay_event` runs and its result is appended, and the id is added to the
set unconditionally — `_relay_event` catches its own exceptions, so the
`except` branch of the loop is unreachable for well-formed event dicts. -/
def process_events {ι : Type} [DecidableEq ι] (ctx : BridgeCtx ι)
    (st : BridgeState ι) (events : List (BridgeEvent ι))
    (results : List (RelayResult ι)) (processed : List ι) :
    List (RelayResult ι) × List ι :=
  match events with
  | [] => (results, processed)
  | e :: rest =>
      if e.event_id ∈ processed then
        process_events ctx st rest results processed
      else
        process_events ctx st rest (results ++ [relay_event ctx st e])
          (processed ++ [e.event_id])

/-- The cleanup step at the end of `process_data`:
`if len(s) > 10000: s = set(list(s)[-5000:])`.  `enum` models the
unspecified enumeration order of `list(s)`. -/
def trim_processed {ι : Type} (enum : List ι → List ι) (s : List ι) : List ι :=
  if s.length > 10000 then (enum s).drop ((enum s).length - 5000) else s

/-- The dict returned by `process_data` (the timestamp key is extrinsic). -/
structure ProcessResult (ι : Type) where
  processed_count : Nat
  results : List (RelayResult ι)
  deriving Repr, DecidableEq

/-- `ChainBridgeOracle.process_data` (bridge.py): relay each not-yet-seen
event, collect per-event results, then bound the dedup set. -/
def process_data {ι : Type} [DecidableEq ι] (ctx : BridgeCtx ι)
    (enum : List ι → List ι) (st : BridgeState ι)
    (events : List (BridgeEvent ι)) : ProcessResult ι × BridgeState ι :=
  let rp := process_events ctx st events [] st.processed_events
  let processed := trim_processed enum rp.2
  ({ processed_count := rp.1.length, results := rp.1 },
   { st with processed_events := processed })

end ChainBridgeOracle

/-- An entry returned by the `EventLogged` contract-event filter
(`event_filter.get_all_entries()` in `_get_recent_events`). -/
structure EthEntry (ι : Type) where
  eventId : ι
  shipmentId : String
  eventType : String
  blockNumber : Int
  transactionHash : String
  deriving Repr, DecidableEq

/-- One cycle's view of the Ethereum source: the head reported by
`web3.eth.block_number`, the full `EventLogged` log of the chain, whether
`ethereum_client.event_log` is configured, and whether the two RPC
interactions succeed (`headOk` for reading the head, `queryOk` for
creating the filter and reading its entries). -/
structure EthSource (ι : Type) where
  blockNumber : Int
  log : List (EthEntry ι)
  eventLogConfigured : Bool
  headOk : Bool
  queryOk : Bool

/-- Modelled from the documented semantics of the external web3 library:
`contract.events.EventLogged.create_filter(fromBlock=a, toBlock=b)
.get_all_entries()` returns exactly the logged entries whose block number
lies in the inclusive range `[a, b]`, in log order. -/
def filter_entries {ι : Type} (log : List (EthEntry ι)) (fromBlock toBlock : Int) :
    List (EthEntry ι) :=
  log.filter (fun e => fromBlock ≤ e.blockNumber && e.blockNumber ≤ toBlock)

/-- The event-type allow-list test in `_get_recent_events`:
`if not self.event_types or entry.args.eventType in self.event_types`.
Python truthiness makes both `None` and the empty list pass everything. -/
def event_type_allowed (event_types : Option (List String)) (t : String) : Bool :=
  match event_types with
  | none => true
  | some l => l.isEmpty || l.contains t

namespace ChainBridgeOracle

/-- The `event_data` dict built for each filter entry in
`_get_recent_events`. -/
def mk_event_data {ι : Type} (ctx : BridgeCtx ι) (st : BridgeState ι)
    (entry : EthEntry ι) : BridgeEvent ι :=
  { event_id := entry.eventId
    shipment_id := entry.shipmentId
    event_type := entry.eventType
    block_number := entry.blockNumber
    transaction_hash := entry.transactionHash
    source_chain := st.source_chain
    timestamp := ctx.now
    bridge_id := some (generate_bridge_id ctx st entry.eventId) }

/-- `ChainBridgeOracle._get_recent_events` (bridge.py).  Only the
`"ethereum"` source branch does real work; `"substrate"`,
`"vietnamchain"` and unknown chains return `[]`.  In the Ethereum branch:
start is `self.last_processed_block or (current - 1000)` (Python `or`,
so a cursor equal to 0 counts as unset), the end is gated at
`current - confirmation_blocks`, the cursor is advanced *before* the
filter query, and any exception (head read or filter query) is caught,
returning `[]` without rolling the cursor back. -/
def get_recent_events {ι : Type} (ctx : BridgeCtx ι) (src : EthSource ι)
    (st : BridgeState ι) : BridgeState ι × List (BridgeEvent ι) :=
  if st.source_chain = "ethereum" then
    if src.headOk = false then (st, [])
    else
      let current_block := src.blockNumber
      let start_block := pyOrInt st.last_processed_block (current_block - 1000)
      let end_block := current_block - st.confirmation_blocks
      if start_block ≥ end_block then (st, [])
      else
        let st2 := { st with last_processed_block := some end_block }
        if src.eventLogConfigured = false then (st2, [])
        else if src.queryOk = false then (st2, [])
        else
          let entries := filter_entries src.log start_block end_block
          let events := (entries.filter
            (fun en => event_type_allowed st.event_types en.eventType)).map
            (mk_event_data ctx st)
          (st2, events)
  else (st, [])

/-- The state evolution of the fetch cursor over a sequence of cycles,
each cycle seeing its own snapshot of the Ethereum source. -/
def run_cycles {ι : Type} (ctx : BridgeCtx ι) (srcs : List (EthSource ι))
    (st : BridgeState ι) : BridgeState ι :=
  match srcs with
  | [] => st
  | src :: rest => run_cycles ctx rest (get_recent_events ctx src st).1

end ChainBridgeOracle

/-- Ordering on optional cursors: `none` (never set) is below everything,
and set cursors must not decrease. -/
def optLe : Option Int → Option Int → Prop
  | none, _ => True
  | some _, none => False
  | some a, some b => a ≤ b

instance (a b : Option Int) : Decidable (optLe a b) := by
  cases a with
  | none => exact isTrue trivial
  | some x =>
      cases b with
      | none => exact isFalse (fun h => h)
      | some y => exact inferInstanceAs (Decidable (x ≤ y))

namespace ChainBridgeManager

/-- The manager's registry, reduced to the key sets of `self.bridges` and
`self.tasks` (the dict values — oracle objects and task handles — play no
role in the registry logic). -/
structure ManagerState where
  bridges : List String
  tasks : List String
  deriving Repr, DecidableEq

/-- `ChainBridgeManager.start_bridge` (bridge.py): spawns a worker and
records its handle only when the bridge is registered and has no task
handle yet; returns whether a worker was started. -/
def start_bridge (m : ManagerState) (bridge_id : String) : ManagerState × Bool :=
  if bridge_id ∈ m.bridges ∧ bridge_id ∉ m.tasks then
    ({ m with tasks := m.tasks ++ [bridge_id] }, true)
  else (m, false)

/-- `ChainBridgeManager.stop_bridge` (bridge.py): stops the oracle and
cancels and forgets the task only when the bridge is registered and has a
task handle; returns whether a worker was stopped. -/
def stop_bridge (m : ManagerState) (bridge_id : String) : ManagerState × Bool :=
  if bridge_id ∈ m.bridges ∧ bridge_id ∈ m.tasks then
    ({ m with tasks := m.tasks.erase bridge_id }, true)
  else (m, false)

/-- `ChainBridgeManager.is_bridge_running` (bridge.py):
`bridge_id in self.tasks`. -/
def is_bridge_running (m : ManagerState) (bridge_id : String) : Bool :=
  m.tasks.contains bridge_id

end ChainBridgeManager

/-- Does the character list `hay` start with `needle`? -/
def list_starts (needle hay : List Char) : Bool :=
  match needle, hay with
  | [], _ => true
  | _ :: _, [] => false
  | a :: as, b :: bs => a = b && list_starts as bs

/-- Does `needle` occur as a contiguous run inside `hay`? -/
def list_infix (needle hay : List Char) : Bool :=
  match hay with
  | [] => needle.isEmpty
  | _ :: tl => list_starts needle hay || list_infix needle tl

/-- Python `needle in hay.lower()` for strings, as character lists. -/
def py_in_lower (needle hay : String) : Bool :=
  list_infix needle.data (hay.data.map Char.toLower)

namespace VietnamChainClient

/-- The JSON body returned by `_make_request` for
`GET api/v1/transactions/{tx_hash}`, restricted to the keys
`get_transaction_status` reads.  `_make_request` (base.py) catches every
exception and signals failures through an `"error"` key, so the response
is always a plain dict; `none` models an absent key. -/
structure TxStatusResponse where
  error : Option String
  status : Option String
  dataType : Option String
  dataShipmentId : Option String
  dataEventId : Option String
  dataDocumentHash : Option String
  blockHash : Option String
  blockNumber : Option Int
  timestamp : Option String
  deriving Repr, DecidableEq

/-- The dict `get_transaction_status` returns (vietnamchain.py).  The
error branches only carry `status`, `tx_hash` and `error`; the main
branch carries the mapped status and the optional block/entity fields. -/
structure TxStatusResult where
  tx_hash : String
  status : String
  error : Option String
  block_hash : Option String
  block_number : Option Int
  timestamp : Option String
  entity_type : Option String
  entity_id : Option String
  deriving Repr, DecidableEq

/-- The literal `status_map` dict of `get_transaction_status`
(vietnamchain.py), as a partial map: `status_map.get(k)` semantics. -/
def status_map (s : String) : Option String :=
  if s = "PENDING" then some "pending"
  else if s = "PROCESSING" then some "pending"
  else if s = "CONFIRMED" then some "confirmed"
  else if s = "FAILED" then some "failed"
  else none

/-- `VietnamChainClient.get_transaction_status` (vietnamchain.py), as a
function of the HTTP response body. -/
def get_transaction_status (tx_hash : String) (resp : TxStatusResponse) :
    TxStatusResult :=
  match resp.error with
  | some err =>
      if py_in_lower "not found" err then
        { tx_hash := tx_hash, status := "not_found",
          error := some "Transaction not found",
          block_hash := none, block_number := none, timestamp := none,
          entity_type := none, entity_id := none }
      else
        { tx_hash := tx_hash, status := "error", error := some err,
          block_hash := none, block_number := none, timestamp := none,
          entity_type := none, entity_id := none }
  | none =>
      let entity_type : Option String :=
        resp.dataType.map (fun t => String.mk (t.data.map Char.toLower))
      let entity_id : Option String :=
        match entity_type with
        | some "shipment" => resp.dataShipmentId
        | some "event" => resp.dataEventId
        | some "document" => resp.dataDocumentHash
        | _ => none
      { tx_hash := tx_hash
        status := (status_map (resp.status.getD "")).getD "unknown"
        error := none
        block_hash := resp.blockHash
        block_number := resp.blockNumber
        timestamp := resp.timestamp
        entity_type := entity_type
        entity_id := entity_id }

/-- The JSON body returned by `_make_request` for the three `register_*`
POSTs, restricted to the keys those methods read. -/
structure RegisterResponse where
  error : Option String
  transactionId : Option String
  deriving Repr, DecidableEq

/-- The shared tail of the three VietnamChain `register_*` methods
(vietnamchain.py): an `"error"` key raises `BlockchainError`; a missing
or falsy `transactionId` raises `BlockchainError`; otherwise the
transaction id is returned.  `what` is the entity word used in the error
message ("shipment", "event", "document"). -/
def register_result (what : String) (resp : RegisterResponse) :
    Except PyError String :=
  match resp.error with
  | some err =>
      .error (.blockchainError
        ("Failed to register " ++ what ++ " on VietnamChain: " ++ err))
  | none =>
      match resp.transactionId with
      | none => .error (.blockchainError "No transaction ID returned from VietnamChain")
      | some h =>
          if h = "" then
            .error (.blockchainError "No transaction ID returned from VietnamChain")
          else .ok h

/-- `VietnamChainClient.register_shipment` (vietnamchain.py), as a
function of the HTTP response body. -/
def register_shipment (resp : RegisterResponse) : Except PyError String :=
  register_result "shipment" resp

/-- `VietnamChainClient.register_event` (vietnamchain.py), as a function
of the HTTP response body. -/
def register_event (resp : RegisterResponse) : Except PyError String :=
  register_result "event" resp

/-- `VietnamChainClient.register_document` (vietnamchain.py), as a
function of the HTTP response body. -/
def register_document (resp : RegisterResponse) : Except PyError String :=
  register_result "document" resp

end VietnamChainClient

namespace EthereumClient

/-- `EthereumClient.register_event` (ethereum.py): if the `EventLog`
contract interface was not configured, the method raises
`ValueError("EventLog contract not initialized")`; otherwise it builds,
signs and sends the transaction, whose outcome (`submit`) is the result
of the external web3 node interaction — returned unwrapped, successes
and failures alike. -/
def register_event (eventLogConfigured : Bool)
    (submit : Except PyError String) : Except PyError String :=
  if eventLogConfigured = false then
    .error (.valueError "EventLog contract not initialized")
  else submit

/-- `EthereumClient.register_shipment` (ethereum.py): same shape, guarded
on the `ShipmentRegistry` contract interface. -/
def register_shipment (shipmentRegistryConfigured : Bool)
    (submit : Except PyError String) : Except PyError String :=
  if shipmentRegistryConfigured = false then
    .error (.valueError "ShipmentRegistry contract not initialized")
  else submit

end EthereumClient

/-! ### Helper lemmas -/

theorem string_append_ne_empty (a b : String) (h : a.data ≠ []) : a ++ b ≠ "" := by
  intro he
  have h2 := congrArg String.data he
  rw [String.data_append] at h2
  exact h (List.append_eq_nil.mp h2).1

theorem generate_bridge_id_ne_empty {ι : Type} (ctx : BridgeCtx ι)
    (st : BridgeState ι) (i : ι) : generate_bridge_id ctx st i ≠ "" := by
  apply string_append_ne_empty
  intro h
  rw [String.data_append, String.data_append, List.append_eq_nil,
    List.append_eq_nil] at h
  exact absurd h.1.1 (by decide)

namespace ChainBridgeOracle

theorem process_events_acc {ι : Type} [DecidableEq ι] (ctx : BridgeCtx ι)
    (st : BridgeState ι) (events : List (BridgeEvent ι)) :
    ∀ results processed, ∃ rs ps,
      process_events ctx st events results processed = (results ++ rs, processed ++ ps) := by
  induction events with
  | nil => intro results processed; exact ⟨[], [], by simp [process_events]⟩
  | cons e rest ih =>
      intro results processed
      by_cases hmem : e.event_id ∈ processed
      · obtain ⟨rs, ps, h⟩ := ih results processed
        exact ⟨rs, ps, by simp [process_events, hmem, h]⟩
      · obtain ⟨rs, ps, h⟩ := ih (results ++ [relay_event ctx st e])
          (processed ++ [e.event_id])
        refine ⟨relay_event ctx st e :: rs, e.event_id :: ps, ?_⟩
        simp only [process_events, if_neg hmem, h, List.append_assoc,
          List.singleton_append]

theorem process_events_ids {ι : Type} [DecidableEq ι] (ctx : BridgeCtx ι)
    (st : BridgeState ι) (events : List (BridgeEvent ι)) :
    ∀ results processed e, e ∈ events →
      e.event_id ∈ (process_events ctx st events results processed).2 := by
  induction events with
  | nil => intro _ _ e he; exact absurd he (List.not_mem_nil e)
  | cons e0 rest ih =>
      intro results processed e he
      by_cases hmem : e0.event_id ∈ processed
      · rcases List.mem_cons.mp he with rfl | hrest
        · obtain ⟨rs, ps, h⟩ := process_events_acc ctx st rest results processed
          simp only [process_events, if_pos hmem, h]
          exact List.mem_append_left _ hmem
        · simp only [process_events, if_pos hmem]
          exact ih results processed e hrest
      · rcases List.mem_cons.mp he with rfl | hrest
        · obtain ⟨rs, ps, h⟩ := process_events_acc ctx st rest
            (results ++ [relay_event ctx st e]) (processed ++ [e.event_id])
          simp only [process_events, if_neg hmem, h]
          exact List.mem_append_left _ (List.mem_append_right _ (by simp))
        · simp only [process_events, if_neg hmem]
          exact ih _ _ e hrest

theorem process_events_all_skip {ι : Type} [DecidableEq ι] (ctx : BridgeCtx ι)
    (st : BridgeState ι) (events : List (BridgeEvent ι)) :
    ∀ results processed, (∀ e ∈ events, e.event_id ∈ processed) →
      process_events ctx st events results processed = (results, processed) := by
  induction events with
  | nil => intro results processed _; rfl
  | cons e rest ih =>
      intro results processed hall
      have hmem : e.event_id ∈ processed := hall e (List.mem_cons_self e rest)
      simp only [process_events, if_pos hmem]
      exact ih results processed (fun x hx => hall x (List.mem_cons_of_mem e hx))

theorem trim_processed_id {ι : Type} (enum : List ι → List ι) (s : List ι)
    (h : s.length ≤ 10000) : trim_processed enum s = s := by
  have hc : ¬ (s.length > 10000) := by omega
  simp only [trim_processed, if_neg hc]

theorem trim_processed_length {ι : Type} (enum : List ι → List ι) (s : List ι)
    (hlen : (enum s).length = s.length) (h : s.length > 10000) :
    (trim_processed enum s).length = 5000 := by
  simp only [trim_processed, if_pos h, List.length_drop]
  omega

theorem trim_processed_subset {ι : Type} (enum : List ι → List ι) (s : List ι)
    (henum : (enum s).Perm s) : ∀ x ∈ trim_processed enum s, x ∈ s := by
  intro x hx
  by_cases h : s.length > 10000
  · simp only [trim_processed, if_pos h] at hx
    exact henum.mem_iff.mp (List.mem_of_mem_drop hx)
  · simpa [trim_processed, if_neg h] using hx

end ChainBridgeOracle

/-! ### Claim C7 -/

/-- Claim C7 (confirmed): for every event relayed by `_relay_event`, the
single `register_event` call on the target client receives a data hash
equal to SHA-256 of `shipment_id : original_event_id : event_type :
bridge_id`, an event type prefixed with `BRIDGED_`, and the BridgeID as
the target-chain event id; for events built by the fetch path
(`mk_event_data`), that BridgeID is exactly the one generated by
`_generate_bridge_id` for the original event id. -/
theorem C7_relay_register_call {ι : Type} (ctx : BridgeCtx ι)
    (st : BridgeState ι) (event : BridgeEvent ι) (entry : EthEntry ι) :
    (ChainBridgeOracle.relay_register_args ctx st event).data_hash =
      ctx.sha256hex (event.shipment_id ++ ":" ++ ctx.reprId event.event_id ++ ":" ++
        event.event_type ++ ":" ++
        pyOrStr event.bridge_id (generate_bridge_id ctx st event.event_id)) ∧
    (ChainBridgeOracle.relay_register_args ctx st event).event_type =
      "BRIDGED_" ++ event.event_type ∧
    (ChainBridgeOracle.relay_register_args ctx st event).event_id =
      pyOrStr event.bridge_id (generate_bridge_id ctx st event.event_id) ∧
    (ChainBridgeOracle.relay_register_args ctx st
        (ChainBridgeOracle.mk_event_data ctx st entry)).event_id =
      generate_bridge_id ctx st entry.eventId := by
  refine ⟨rfl, rfl, rfl, ?_⟩
  simp only [ChainBridgeOracle.relay_register_args, ChainBridgeOracle.mk_event_data,
    pyOrStr, if_neg (generate_bridge_id_ne_empty ctx st entry.eventId)]

/-! ### Claim C9 -/

/-- Claim C9 (confirmed): `start_bridge` on a bridge that already has a
task handle returns `false` and changes nothing; `stop_bridge` on a
bridge without a task handle returns `false` and changes nothing; and
`is_bridge_running` reports exactly the presence of a task handle. -/
theorem C9_manager_lifecycle (m : ChainBridgeManager.ManagerState)
    (bridge_id : String) :
    (bridge_id ∈ m.tasks →
      ChainBridgeManager.start_bridge m bridge_id = (m, false)) ∧
    (bridge_id ∉ m.tasks →
      ChainBridgeManager.stop_bridge m bridge_id = (m, false)) ∧
    (ChainBridgeManager.is_bridge_running m bridge_id = true ↔
      bridge_id ∈ m.tasks) := by
  refine ⟨?_, ?_, ?_⟩
  · intro h
    have hc : ¬ (bridge_id ∈ m.bridges ∧ bridge_id ∉ m.tasks) :=
      fun hc => hc.2 h
    simp only [ChainBridgeManager.start_bridge, if_neg hc]
  · intro h
    have hc : ¬ (bridge_id ∈ m.bridges ∧ bridge_id ∈ m.tasks) :=
      fun hc => h hc.2
    simp only [ChainBridgeManager.stop_bridge, if_neg hc]
  · simp [ChainBridgeManager.is_bridge_running]

/-- Witness for C9 at a concrete manager state. -/
theorem C9_manager_lifecycle_witness :
    ChainBridgeManager.start_bridge
      { bridges := ["b1"], tasks := ["b1"] } "b1" =
      ({ bridges := ["b1"], tasks := ["b1"] }, false) ∧
    ChainBridgeManager.stop_bridge
      { bridges := ["b2"], tasks := [] } "b2" =
      ({ bridges := ["b2"], tasks := [] }, false) := by
  constructor
  · exact (C9_manager_lifecycle { bridges := ["b1"], tasks := ["b1"] } "b1").1
      (by decide)
  · exact (C9_manager_lifecycle { bridges := ["b2"], tasks := [] } "b2").2.1
      (by decide)

/-! ### Claim C2 -/

/-- A successful-transaction response whose native status lies outside
the mapped vocabulary PENDING/PROCESSING/CONFIRMED/FAILED. -/
def respReverted : VietnamChainClient.TxStatusResponse :=
  { error := none, status := some "REVERTED", dataType := none,
    dataShipmentId := none, dataEventId := none, dataDocumentHash := none,
    blockHash := none, blockNumber := none, timestamp := none }

/-- Claim C2 counterexample: a native status outside the mapped
vocabulary (here `"REVERTED"`) is mapped to the literal string
`"unknown"`, which is not `"error"` and lies outside the unified enum
`{pending, confirmed, failed, not_found, error}` — refuting the claim
that unmapped native values map to `error` and never leave the enum. -/
theorem C2_unknown_status_counterexample :
    (VietnamChainClient.get_transaction_status "0xabc" respReverted).status =
      "unknown" ∧
    "unknown" ∉ (["pending", "confirmed", "failed", "not_found", "error"] :
      List String) := by
  constructor
  · rfl
  · decide

/-- Claim C2 (amended): on the REST-ledger variant, each of the four
native statuses maps into the unified enum (PENDING and PROCESSING to
`pending`, CONFIRMED to `confirmed`, FAILED to `failed`); error
responses map to `not_found` or `error`; but a native status outside
that vocabulary maps to the out-of-enum literal `"unknown"`, not to
`"error"`. -/
theorem C2_status_mapping (tx : String)
    (resp : VietnamChainClient.TxStatusResponse) :
    (VietnamChainClient.get_transaction_status tx resp).status ∈
      (["pending", "confirmed", "failed", "not_found", "error", "unknown"] :
        List String) ∧
    (resp.error = none → resp.status = some "PENDING" →
      (VietnamChainClient.get_transaction_status tx resp).status = "pending") ∧
    (resp.error = none → resp.status = some "PROCESSING" →
      (VietnamChainClient.get_transaction_status tx resp).status = "pending") ∧
    (resp.error = none → resp.status = some "CONFIRMED" →
      (VietnamChainClient.get_transaction_status tx resp).status = "confirmed") ∧
    (resp.error = none → resp.status = some "FAILED" →
      (VietnamChainClient.get_transaction_status tx resp).status = "failed") ∧
    (resp.error = none →
      VietnamChainClient.status_map (resp.status.getD "") = none →
      (VietnamChainClient.get_transaction_status tx resp).status = "unknown") := by
  refine ⟨?_, ?_, ?_, ?_, ?_, ?_⟩
  · match hresp : resp.error with
    | some err =>
        by_cases hnf : py_in_lower "not found" err = true
        · simp [VietnamChainClient.get_transaction_status, hresp, hnf]
        · simp [VietnamChainClient.get_transaction_status, hresp, hnf]
    | none =>
        simp only [VietnamChainClient.get_transaction_status, hresp]
        match hst : resp.status with
        | none => simp [VietnamChainClient.status_map]
        | some s =>
            simp only [Option.getD_some]
            by_cases h1 : s = "PENDING"
            · simp [VietnamChainClient.status_map, h1]
            · by_cases h2 : s = "PROCESSING"
              · simp [VietnamChainClient.status_map, h1, h2]
              · by_cases h3 : s = "CONFIRMED"
                · simp [VietnamChainClient.status_map, h1, h2, h3]
                · by_cases h4 : s = "FAILED"
                  · simp [VietnamChainClient.status_map, h1, h2, h3, h4]
                  · simp [VietnamChainClient.status_map, h1, h2, h3, h4]
  · intro he hs
    simp [VietnamChainClient.get_transaction_status, he, hs,
      VietnamChainClient.status_map]
  · intro he hs
    simp [VietnamChainClient.get_transaction_status, he, hs,
      VietnamChainClient.status_map]
  · intro he hs
    simp [VietnamChainClient.get_transaction_status, he, hs,
      VietnamChainClient.status_map]
  · intro he hs
    simp [VietnamChainClient.get_transaction_status, he, hs,
      VietnamChainClient.status_map]
  · intro he hs
    simp [VietnamChainClient.get_transaction_status, he, hs]

/-- Witness for C2 (amended) at concrete responses: a CONFIRMED native
status maps to `confirmed`. -/
theorem C2_status_mapping_witness :
    (VietnamChainClient.get_transaction_status "0x1"
      { error := none, status := some "CONFIRMED", dataType := none,
        dataShipmentId := none, dataEventId := none, dataDocumentHash := none,
        blockHash := none, blockNumber := none, timestamp := none }).status =
      "confirmed" :=
  (C2_status_mapping "0x1"
    { error := none, status := some "CONFIRMED", dataType := none,
      dataShipmentId := none, dataEventId := none, dataDocumentHash := none,
      blockHash := none, blockNumber := none, timestamp := none }).2.2.2.1
    rfl rfl

/-! ### Claim C8 -/

/-- Claim C8 counterexample: `EthereumClient.register_event` with an
uninitialized `EventLog` contract interface raises
`ValueError("EventLog contract not initialized")`, which is not a
`BlockchainError` — so not every `register_*` call either returns a
transaction handle or raises a `BlockchainError`. -/
theorem C8_ethereum_valueerror_counterexample :
    EthereumClient.register_event false (.ok "0xbeef") =
      .error (.valueError "EventLog contract not initialized") ∧
    (PyError.valueError "EventLog contract not initialized").isBlockchainError
      = false := by
  constructor
  · rfl
  · rfl

/-- Claim C8 (amended): the three VietnamChain `register_*` calls always
either return a transaction-id string or raise a `BlockchainError`;
the Ethereum `register_*` calls instead raise a plain `ValueError` when
the required contract interface is uninitialized, and otherwise return
the submission outcome unwrapped (propagating whatever the web3 node
interaction raises). -/
theorem C8_register_outcomes (resp : VietnamChainClient.RegisterResponse)
    (submit : Except PyError String) :
    ((∃ h, VietnamChainClient.register_shipment resp = .ok h) ∨
      (∃ m, VietnamChainClient.register_shipment resp =
        .error (.blockchainError m))) ∧
    ((∃ h, VietnamChainClient.register_event resp = .ok h) ∨
      (∃ m, VietnamChainClient.register_event resp =
        .error (.blockchainError m))) ∧
    ((∃ h, VietnamChainClient.register_document resp = .ok h) ∨
      (∃ m, VietnamChainClient.register_document resp =
        .error (.blockchainError m))) ∧
    EthereumClient.register_event false submit =
      .error (.valueError "EventLog contract not initialized") ∧
    EthereumClient.register_event true submit = submit ∧
    EthereumClient.register_shipment false submit =
      .error (.valueError "ShipmentRegistry contract not initialized") ∧
    EthereumClient.register_shipment true submit = submit := by
  have hv : ∀ what, (∃ h, VietnamChainClient.register_result what resp = .ok h) ∨
      (∃ m, VietnamChainClient.register_result what resp =
        .error (.blockchainError m)) := by
    intro what
    match he : resp.error with
    | some err =>
        exact Or.inr ⟨"Failed to register " ++ what ++ " on VietnamChain: " ++ err,
          by simp [VietnamChainClient.register_result, he]⟩
    | none =>
        match ht : resp.transactionId with
        | none =>
            exact Or.inr ⟨"No transaction ID returned from VietnamChain",
              by simp [VietnamChainClient.register_result, he, ht]⟩
        | some h =>
            by_cases hh : h = ""
            · exact Or.inr ⟨"No transaction ID returned from VietnamChain", by
                simp [VietnamChainClient.register_result, he, ht, hh]⟩
            · exact Or.inl ⟨h, by
                simp [VietnamChainClient.register_result, he, ht, hh]⟩
  exact ⟨hv "shipment", hv "event", hv "document", rfl, rfl, rfl, rfl⟩

/-! ### Fetch-path helper lemmas -/

namespace ChainBridgeOracle

theorem get_recent_events_mem_bounds {ι : Type} (ctx : BridgeCtx ι)
    (src : EthSource ι) (st : BridgeState ι) (e : BridgeEvent ι)
    (he : e ∈ (get_recent_events ctx src st).2) :
    pyOrInt st.last_processed_block (src.blockNumber - 1000) ≤ e.block_number ∧
    e.block_number ≤ src.blockNumber - st.confirmation_blocks := by
  unfold get_recent_events at he
  by_cases h1 : st.source_chain = "ethereum"
  · rw [if_pos h1] at he
    by_cases h2 : src.headOk = false
    · rw [if_pos h2] at he
      exact absurd he (List.not_mem_nil e)
    · rw [if_neg h2] at he
      simp only at he
      by_cases h3 : pyOrInt st.last_processed_block (src.blockNumber - 1000) ≥
          src.blockNumber - st.confirmation_blocks
      · rw [if_pos h3] at he
        exact absurd he (List.not_mem_nil e)
      · rw [if_neg h3] at he
        by_cases h4 : src.eventLogConfigured = false
        · rw [if_pos h4] at he
          exact absurd he (List.not_mem_nil e)
        · rw [if_neg h4] at he
          by_cases h5 : src.queryOk = false
          · rw [if_pos h5] at he
            exact absurd he (List.not_mem_nil e)
          · rw [if_neg h5] at he
            obtain ⟨entry, hentry, rfl⟩ := List.mem_map.mp he
            have hin : entry ∈ filter_entries src.log
                (pyOrInt st.last_processed_block (src.blockNumber - 1000))
                (src.blockNumber - st.confirmation_blocks) :=
              (List.mem_filter.mp hentry).1
            have hp := (List.mem_filter.mp hin).2
            rw [Bool.and_eq_true, decide_eq_true_eq, decide_eq_true_eq] at hp
            exact hp
  · rw [if_neg h1] at he
    exact absurd he (List.not_mem_nil e)

theorem get_recent_events_advances {ι : Type} (ctx : BridgeCtx ι)
    (src : EthSource ι) (st : BridgeState ι)
    (heth : st.source_chain = "ethereum") (hhead : src.headOk = true)
    (hlt : pyOrInt st.last_processed_block (src.blockNumber - 1000) <
      src.blockNumber - st.confirmation_blocks) :
    (get_recent_events ctx src st).1 =
      { st with
        last_processed_block := some (src.blockNumber - st.confirmation_blocks) } := by
  unfold get_recent_events
  rw [if_pos heth, if_neg (by rw [hhead]; exact Bool.noConfusion)]
  simp only
  rw [if_neg (not_le.mpr hlt)]
  by_cases h4 : src.eventLogConfigured = false
  · rw [if_pos h4]
  · rw [if_neg h4]
    by_cases h5 : src.queryOk = false
    · rw [if_pos h5]
    · rw [if_neg h5]

theorem get_recent_events_cursor_step {ι : Type} (ctx : BridgeCtx ι)
    (src : EthSource ι) (st : BridgeState ι) (L : Int)
    (hL : st.last_processed_block = some L) (hpos : 0 < L) :
    ∃ L2, (get_recent_events ctx src st).1.last_processed_block = some L2 ∧
      L ≤ L2 := by
  by_cases h1 : st.source_chain = "ethereum"
  · by_cases h2 : src.headOk = false
    · exact ⟨L, by unfold get_recent_events; rw [if_pos h1, if_pos h2]; exact hL,
        le_refl L⟩
    · have hhead : src.headOk = true := by
        cases hsrc : src.headOk
        · exact absurd hsrc h2
        · rfl
      have hstart : pyOrInt st.last_processed_block (src.blockNumber - 1000) = L := by
        rw [hL]
        simp only [pyOrInt, if_neg (by omega : ¬ L = 0)]
      by_cases h3 : pyOrInt st.last_processed_block (src.blockNumber - 1000) ≥
          src.blockNumber - st.confirmation_blocks
      · refine ⟨L, ?_, le_refl L⟩
        unfold get_recent_events
        rw [if_pos h1, if_neg (by rw [hhead]; exact Bool.noConfusion)]
        simp only
        rw [if_pos h3]
        exact hL
      · refine ⟨src.blockNumber - st.confirmation_blocks, ?_, ?_⟩
        · rw [get_recent_events_advances ctx src st h1 hhead (not_le.mp h3)]
        · rw [hstart] at h3
          omega
  · exact ⟨L, by unfold get_recent_events; rw [if_neg h1]; exact hL, le_refl L⟩

theorem run_cycles_cursor_mono {ι : Type} (ctx : BridgeCtx ι)
    (srcs : List (EthSource ι)) :
    ∀ (st : BridgeState ι) (L : Int), st.last_processed_block = some L →
      0 < L → ∃ L2, (run_cycles ctx srcs st).last_processed_block = some L2 ∧
        L ≤ L2 := by
  induction srcs with
  | nil => intro st L hL _; exact ⟨L, hL, le_refl L⟩
  | cons src rest ih =>
      intro st L hL hpos
      obtain ⟨L1, hL1, hle1⟩ := get_recent_events_cursor_step ctx src st L hL hpos
      obtain ⟨L2, hL2, hle2⟩ := ih _ L1 hL1 (by omega)
      exact ⟨L2, hL2, le_trans hle1 hle2⟩

end ChainBridgeOracle

/-! ### Claim C4 -/

/-- Claim C4 (confirmed): no fetch cycle ever returns an event whose
block number exceeds `head - confirmation_blocks`: every event in the
batch produced by `_get_recent_events` satisfies the confirmation-depth
gate, the upper bound of the queried block range. -/
theorem C4_confirmation_gate {ι : Type} (ctx : BridgeCtx ι)
    (src : EthSource ι) (st : BridgeState ι) (e : BridgeEvent ι)
    (he : e ∈ (ChainBridgeOracle.get_recent_events ctx src st).2) :
    e.block_number ≤ src.blockNumber - st.confirmation_blocks :=
  (ChainBridgeOracle.get_recent_events_mem_bounds ctx src st e he).2

/-- Concrete context over `Nat` event ids used by witnesses and
counterexamples (the hash function, clock and target client are inputs
of the embedding; any value instantiates them). -/
def ctxNat : BridgeCtx Nat :=
  { sha256hex := fun _ => "f00d"
    register := fun _ => .ok "0xok"
    timestamp := 1700000000
    now := "2024-01-01T00:00:00"
    reprId := fun n => toString n }

def entry100 : EthEntry Nat :=
  { eventId := 7, shipmentId := "SHIP-7", eventType := "CREATED",
    blockNumber := 100, transactionHash := "0xaa" }

def st10 : BridgeState Nat :=
  { source_chain := "ethereum", target_chain := "substrate",
    event_types := none, confirmation_blocks := 5,
    last_processed_block := some 50, processed_events := [] }

def src10b : EthSource Nat :=
  { blockNumber := 110, log := [entry100], eventLogConfigured := true,
    headOk := true, queryOk := true }

/-- Witness for C4 at a concrete fetch that returns one event. -/
theorem C4_confirmation_gate_witness :
    (ChainBridgeOracle.mk_event_data ctxNat st10 entry100).block_number ≤
      src10b.blockNumber - st10.confirmation_blocks :=
  C4_confirmation_gate ctxNat src10b st10
    (ChainBridgeOracle.mk_event_data ctxNat st10 entry100) (by decide)

/-! ### Claim C5 -/

def st5 : BridgeState Nat :=
  { source_chain := "ethereum", target_chain := "substrate",
    event_types := none, confirmation_blocks := 5,
    last_processed_block := none, processed_events := [] }

def src5a : EthSource Nat :=
  { blockNumber := 5, log := [], eventLogConfigured := false,
    headOk := true, queryOk := true }

def src5b : EthSource Nat :=
  { blockNumber := 3, log := [], eventLogConfigured := false,
    headOk := true, queryOk := true }

/-- Claim C5 counterexample: starting from a fresh bridge, a cycle whose
head equals `confirmation_blocks` leaves the cursor at exactly 0; in the
next cycle Python's `self.last_processed_block or (current - 1000)`
treats the 0 cursor as unset, and if the node then reports a smaller
head (nothing in the code constrains the head across cycles), the cursor
is rewritten to `head - confirmation_blocks` and *decreases* — so
`last_processed_block` is not monotonically non-decreasing across every
sequence of fetch cycles. -/
theorem C5_cursor_decreases_counterexample :
    (ChainBridgeOracle.run_cycles ctxNat [src5a] st5).last_processed_block =
      some 0 ∧
    (ChainBridgeOracle.run_cycles ctxNat [src5a, src5b] st5).last_processed_block
      = some (-2) ∧
    (-2 : Int) < 0 := by
  refine ⟨rfl, rfl, by decide⟩

/-- Claim C5 (amended): as long as the stored cursor is positive,
`last_processed_block` is monotonically non-decreasing across every
sequence of fetch cycles (a cursor of exactly 0 is treated as falsy by
the Python `or` fallback and can be moved backwards); and on every fetch
on an Ethereum source whose head read succeeds and whose gated range is
non-empty, the cursor advances to `head - confirmation_blocks`, even
when zero events are found. -/
theorem C5_cursor_monotone_and_advances {ι : Type} (ctx : BridgeCtx ι)
    (srcs : List (EthSource ι)) (src : EthSource ι) (st : BridgeState ι)
    (L : Int) :
    (st.last_processed_block = some L → 0 < L →
      ∃ L2, (ChainBridgeOracle.run_cycles ctx srcs st).last_processed_block =
        some L2 ∧ L ≤ L2) ∧
    (st.source_chain = "ethereum" → src.headOk = true →
      pyOrInt st.last_processed_block (src.blockNumber - 1000) <
        src.blockNumber - st.confirmation_blocks →
      (ChainBridgeOracle.get_recent_events ctx src st).1.last_processed_block =
        some (src.blockNumber - st.confirmation_blocks)) := by
  constructor
  · intro hL hpos
    exact ChainBridgeOracle.run_cycles_cursor_mono ctx srcs st L hL hpos
  · intro heth hhead hlt
    rw [ChainBridgeOracle.get_recent_events_advances ctx src st heth hhead hlt]

def st5w : BridgeState Nat :=
  { source_chain := "ethereum", target_chain := "substrate",
    event_types := none, confirmation_blocks := 5,
    last_processed_block := some 50, processed_events := [] }

def src5w : EthSource Nat :=
  { blockNumber := 105, log := [], eventLogConfigured := false,
    headOk := true, queryOk := true }

/-- Witness for C5 (amended) at a concrete positive cursor and a
concrete cycle with a non-empty gated range that found zero events. -/
theorem C5_cursor_monotone_and_advances_witness :
    (∃ L2, (ChainBridgeOracle.run_cycles ctxNat [src5w] st5w).last_processed_block
      = some L2 ∧ 50 ≤ L2) ∧
    (ChainBridgeOracle.get_recent_events ctxNat src5w st5w).1.last_processed_block
      = some 100 := by
  constructor
  · exact (C5_cursor_monotone_and_advances ctxNat [src5w] src5w st5w 50).1
      rfl (by decide)
  · exact (C5_cursor_monotone_and_advances ctxNat [] src5w st5w 50).2
      rfl rfl (by decide)

/-! ### Claim C10 -/

def src10a : EthSource Nat :=
  { blockNumber := 105, log := [entry100], eventLogConfigured := true,
    headOk := true, queryOk := false }

/-- Claim C10 counterexample: a failed query cycle (head 105,
confirmations 5, cursor 50) returns no events while advancing the cursor
to 100; the entry at block 100 lies inside the failed range
`[50, 100]`, yet the very next cycle (head 110) fetches it, because the
next `fromBlock` equals the previous inclusive `toBlock` — so the events
of the failed range are not all lost forever. -/
theorem C10_boundary_refetch_counterexample :
    (ChainBridgeOracle.get_recent_events ctxNat src10a st10).2 = [] ∧
    (ChainBridgeOracle.get_recent_events ctxNat src10a st10).1.last_processed_block
      = some 100 ∧
    (50 : Int) ≤ entry100.blockNumber ∧ entry100.blockNumber ≤ 100 ∧
    ∃ e ∈ (ChainBridgeOracle.get_recent_events ctxNat src10b
      (ChainBridgeOracle.get_recent_events ctxNat src10a st10).1).2,
      e.event_id = entry100.eventId := by
  refine ⟨rfl, rfl, by decide, by decide, ?_⟩
  exact ⟨ChainBridgeOracle.mk_event_data ctxNat
    (ChainBridgeOracle.get_recent_events ctxNat src10a st10).1 entry100,
    by decide, rfl⟩

/-- Claim C10 (amended): in the Ethereum source path the cursor is
advanced to `head - confirmation_blocks` before the event query, so a
failed query yields an empty batch with the cursor already advanced and
no rollback; every later cycle whose (truthy) cursor is at least that
bound only fetches events at blocks `≥` the bound — hence blocks
strictly inside the failed range are never re-fetched, while the
boundary block `head - confirmation_blocks` itself can be fetched again
(the next range starts at it, inclusively). -/
theorem C10_failed_query_no_rollback {ι : Type} (ctx ctx2 : BridgeCtx ι)
    (src src2 : EthSource ι) (st st2 : BridgeState ι)
    (heth : st.source_chain = "ethereum") (hhead : src.headOk = true)
    (hlt : pyOrInt st.last_processed_block (src.blockNumber - 1000) <
      src.blockNumber - st.confirmation_blocks)
    (hfail : src.queryOk = false) :
    ChainBridgeOracle.get_recent_events ctx src st =
      ({ st with
        last_processed_block := some (src.blockNumber - st.confirmation_blocks) },
        []) ∧
    (∀ L2, st2.last_processed_block = some L2 → L2 ≠ 0 →
      src.blockNumber - st.confirmation_blocks ≤ L2 →
      ∀ e ∈ (ChainBridgeOracle.get_recent_events ctx2 src2 st2).2,
        src.blockNumber - st.confirmation_blocks ≤ e.block_number) := by
  constructor
  · unfold ChainBridgeOracle.get_recent_events
    rw [if_pos heth, if_neg (by rw [hhead]; exact Bool.noConfusion)]
    simp only
    rw [if_neg (not_le.mpr hlt)]
    by_cases h4 : src.eventLogConfigured = false
    · rw [if_pos h4]
    · rw [if_neg h4, if_pos hfail]
  · intro L2 hL2 hnz hge e he
    have hlow := (ChainBridgeOracle.get_recent_events_mem_bounds ctx2 src2 st2
      e he).1
    rw [hL2] at hlow
    simp only [pyOrInt, if_neg hnz] at hlow
    omega

def st11 : BridgeState Nat :=
  { source_chain := "ethereum", target_chain := "substrate",
    event_types := none, confirmation_blocks := 5,
    last_processed_block := some 100, processed_events := [] }

/-- Witness for C10 (amended) at the concrete failed cycle of the
counterexample scenario and a later cycle holding cursor 100. -/
theorem C10_failed_query_no_rollback_witness :
    ChainBridgeOracle.get_recent_events ctxNat src10a st10 =
      ({ st10 with last_processed_block := some 100 }, []) ∧
    (∀ e ∈ (ChainBridgeOracle.get_recent_events ctxNat src10b st11).2,
      (100 : Int) ≤ e.block_number) := by
  have h := C10_failed_query_no_rollback ctxNat ctxNat src10a src10b st10 st11
    rfl rfl (by decide) rfl
  exact ⟨h.1, fun e he => h.2 100 rfl (by decide) (by decide) e he⟩

/-! ### Claim C1 -/

/-- Target client that fails for shipment `SHIP-X` and succeeds
otherwise (scenario B of the spec: a connectivity failure for event X,
success for event Y, in one batch). -/
def ctxFail : BridgeCtx String :=
  { sha256hex := fun _ => "ab12"
    register := fun a =>
      if a.shipment_id = "SHIP-X" then
        .error (.otherError "ConnectivityError: target unreachable")
      else .ok "0xok"
    timestamp := 1700000000
    now := "2024-01-01T00:00:00"
    reprId := fun s => s }

def evX : BridgeEvent String :=
  { event_id := "evt-X", shipment_id := "SHIP-X", event_type := "CREATED",
    block_number := 10, transaction_hash := "0xa",
    source_chain := "ethereum", timestamp := "T",
    bridge_id := some "bridge_ethereum_ab12" }

def evY : BridgeEvent String :=
  { event_id := "evt-Y", shipment_id := "SHIP-Y", event_type := "CREATED",
    block_number := 11, transaction_hash := "0xb",
    source_chain := "ethereum", timestamp := "T",
    bridge_id := some "bridge_ethereum_ab13" }

def st1 : BridgeState String :=
  { source_chain := "ethereum", target_chain := "vietnamchain",
    event_types := none, confirmation_blocks := 5,
    last_processed_block := none, processed_events := [] }

/-- Claim C1 counterexample: in a batch where relaying X fails and
relaying Y succeeds, X's error result is recorded and Y is still
processed (no abort) — but X's event id IS added to the
ProcessedEventSet, refuting the claim that a failed event is not added:
`_relay_event` catches the registration exception itself and returns an
error dict, so `process_data` reaches its unconditional
`processed_events.add(event_id)` line. -/
theorem C1_failed_event_added_counterexample :
    ((ChainBridgeOracle.process_data ctxFail (fun l => l) st1
      [evX, evY]).1.results.map (fun r => r.status)) = ["error", "success"] ∧
    "evt-X" ∈ (ChainBridgeOracle.process_data ctxFail (fun l => l) st1
      [evX, evY]).2.processed_events ∧
    "evt-Y" ∈ (ChainBridgeOracle.process_data ctxFail (fun l => l) st1
      [evX, evY]).2.processed_events := by
  refine ⟨by decide, by decide, by decide⟩

/-- Claim C1 (amended): an event whose relay fails is recorded as a
per-event error result (its `error` field is set), the rest of the batch
is processed exactly as if the failure had been a success (no abort, and
`process_data` is total so nothing propagates) — but the failed event's
id IS added to the ProcessedEventSet (before the end-of-run trim), so a
failed relay is not retried in later cycles. -/
theorem C1_relay_failure_isolated {ι : Type} [DecidableEq ι]
    (ctx : BridgeCtx ι) (enum : List ι → List ι) (st : BridgeState ι)
    (e : BridgeEvent ι) (rest : List (BridgeEvent ι))
    (hnew : e.event_id ∉ st.processed_events)
    (hfail : (ChainBridgeOracle.relay_event ctx st e).status = "error") :
    (∃ msg, (ChainBridgeOracle.relay_event ctx st e).error = some msg) ∧
    (ChainBridgeOracle.process_data ctx enum st (e :: rest)).1.results =
      (ChainBridgeOracle.process_events ctx st rest
        [ChainBridgeOracle.relay_event ctx st e]
        (st.processed_events ++ [e.event_id])).1 ∧
    ChainBridgeOracle.relay_event ctx st e ∈
      (ChainBridgeOracle.process_data ctx enum st (e :: rest)).1.results ∧
    e.event_id ∈ (ChainBridgeOracle.process_events ctx st (e :: rest) []
      st.processed_events).2 := by
  have hstep : ChainBridgeOracle.process_events ctx st (e :: rest) []
      st.processed_events =
      ChainBridgeOracle.process_events ctx st rest
        [ChainBridgeOracle.relay_event ctx st e]
        (st.processed_events ++ [e.event_id]) := by
    simp only [ChainBridgeOracle.process_events, if_neg hnew, List.nil_append]
  refine ⟨?_, ?_, ?_, ?_⟩
  · match hreg : ctx.register (ChainBridgeOracle.relay_register_args ctx st e) with
    | .ok h =>
        exfalso
        have : (ChainBridgeOracle.relay_event ctx st e).status = "success" := by
          simp only [ChainBridgeOracle.relay_event, hreg]
        rw [this] at hfail
        exact absurd hfail (by decide)
    | .error err =>
        cases err with
        | blockchainError m =>
            exact ⟨m, by simp only [ChainBridgeOracle.relay_event, hreg]⟩
        | valueError m =>
            exact ⟨m, by simp only [ChainBridgeOracle.relay_event, hreg]⟩
        | otherError m =>
            exact ⟨m, by simp only [ChainBridgeOracle.relay_event, hreg]⟩
  · show (ChainBridgeOracle.process_events ctx st (e :: rest) []
      st.processed_events).1 = _
    rw [hstep]
  · show ChainBridgeOracle.relay_event ctx st e ∈
      (ChainBridgeOracle.process_events ctx st (e :: rest) []
        st.processed_events).1
    rw [hstep]
    obtain ⟨rs, ps, hacc⟩ := ChainBridgeOracle.process_events_acc ctx st rest
      [ChainBridgeOracle.relay_event ctx st e] (st.processed_events ++ [e.event_id])
    rw [hacc]
    exact List.mem_append_left _ (by simp)
  · exact ChainBridgeOracle.process_events_ids ctx st (e :: rest) []
      st.processed_events e (List.mem_cons_self e rest)

/-- Witness for C1 (amended) at the concrete scenario-B batch. -/
theorem C1_relay_failure_isolated_witness :
    (∃ msg, (ChainBridgeOracle.relay_event ctxFail st1 evX).error = some msg) ∧
    (ChainBridgeOracle.process_data ctxFail (fun l => l) st1
      [evX, evY]).1.results =
      (ChainBridgeOracle.process_events ctxFail st1 [evY]
        [ChainBridgeOracle.relay_event ctxFail st1 evX]
        (st1.processed_events ++ [evX.event_id])).1 ∧
    ChainBridgeOracle.relay_event ctxFail st1 evX ∈
      (ChainBridgeOracle.process_data ctxFail (fun l => l) st1
        [evX, evY]).1.results ∧
    evX.event_id ∈ (ChainBridgeOracle.process_events ctxFail st1 [evX, evY] []
      st1.processed_events).2 :=
  C1_relay_failure_isolated ctxFail (fun l => l) st1 evX [evY]
    (by decide) (by decide)

/-! ### Claim C3 -/

/-- The 10000 already-processed ids used by the large-set scenarios. -/
def bigIds : List Nat := List.range 10000

/-- A legal enumeration order of a CPython set: the most recently
inserted element comes out first.  (CPython string-keyed sets iterate in
an order that depends on randomized hashes, so no particular order may be
assumed; `enumMoveLast l` is a permutation of `l`.) -/
def enumMoveLast : List Nat → List Nat :=
  fun l => l.getLast?.toList ++ l.dropLast

theorem enumMoveLast_perm (l : List Nat) : (enumMoveLast l).Perm l := by
  match l with
  | [] => simp [enumMoveLast]
  | a :: l2 =>
      have hne : (a :: l2) ≠ [] := by simp
      have hgl : (a :: l2).getLast? = some ((a :: l2).getLast hne) :=
        List.getLast?_eq_getLast _ hne
      show ((a :: l2).getLast?.toList ++ (a :: l2).dropLast).Perm (a :: l2)
      rw [hgl]
      simp only [Option.toList_some, List.singleton_append]
      have hperm := (List.perm_append_singleton ((a :: l2).getLast hne)
        ((a :: l2).dropLast)).symm
      have hsplit : (a :: l2).dropLast ++ [(a :: l2).getLast hne] = a :: l2 :=
        List.dropLast_append_getLast hne
      rw [hsplit] at hperm
      exact hperm

/-- Evaluating the trim step on a 10001-element set enumerated with the
newest element first: the newest element is evicted. -/
theorem trim_enumMoveLast_big :
    ChainBridgeOracle.trim_processed enumMoveLast
      (bigIds ++ [10000]) = bigIds.drop 5000 := by
  have henum : enumMoveLast (bigIds ++ [10000]) =
      10000 :: bigIds := by
    simp [enumMoveLast]
  have hcond : (bigIds ++ [10000]).length > 10000 := by
    simp [bigIds]
  rw [ChainBridgeOracle.trim_processed, if_pos hcond, henum]
  have h2 : (10000 :: bigIds).length - 5000 = 5001 := by
    simp [bigIds]
  rw [h2, show (5001 : Nat) = 5000 + 1 from rfl, List.drop_succ_cons]

def stC3 : BridgeState Nat :=
  { source_chain := "ethereum", target_chain := "substrate",
    event_types := none, confirmation_blocks := 5,
    last_processed_block := none,
    processed_events := bigIds ++ [10000] }

/-- Claim C3 counterexample: with the set over the high-water mark
(10001 ids, the id 10000 inserted last), a run of `process_data` under
the legal enumeration order `enumMoveLast` trims to 5000 entries but
evicts the most recently added id 10000 — refuting the claim that the
retained entries are the most recently added ones.  The source trims
with `set(list(self.processed_events)[-5000:])`, and a Python set has no
defined iteration order, so "the last 5000 of `list(s)`" need not be the
most recently added. -/
theorem C3_newest_evicted_counterexample :
    stC3.processed_events.getLast? = some 10000 ∧
    (ChainBridgeOracle.process_data ctxNat enumMoveLast stC3
      []).2.processed_events.length = 5000 ∧
    10000 ∉ (ChainBridgeOracle.process_data ctxNat enumMoveLast stC3
      []).2.processed_events := by
  have hps : (ChainBridgeOracle.process_data ctxNat enumMoveLast stC3
      []).2.processed_events = bigIds.drop 5000 := by
    simp only [ChainBridgeOracle.process_data, ChainBridgeOracle.process_events]
    calc ChainBridgeOracle.trim_processed enumMoveLast stC3.processed_events
        = ChainBridgeOracle.trim_processed enumMoveLast
            (bigIds ++ [10000]) := rfl
      _ = bigIds.drop 5000 := trim_enumMoveLast_big
  refine ⟨by simp [stC3], ?_, ?_⟩
  · rw [hps]
    simp [bigIds]
  · rw [hps]
    intro h
    exact absurd (List.mem_of_mem_drop h) (by simp [bigIds])

/-- Claim C3 (amended): whenever a run of `process_data` leaves the
dedup set with more than 10000 entries before the cleanup step, the set
is trimmed to exactly 5000 entries, all of them drawn from the pre-trim
set; which 5000 survive depends on the set's (unspecified) enumeration
order, so the retained entries are not necessarily the most recently
added ones. -/
theorem C3_trim_bounds {ι : Type} [DecidableEq ι] (ctx : BridgeCtx ι)
    (enum : List ι → List ι) (st : BridgeState ι)
    (events : List (BridgeEvent ι))
    (henum : ∀ l, (enum l).Perm l)
    (hbig : (ChainBridgeOracle.process_events ctx st events []
      st.processed_events).2.length > 10000) :
    (ChainBridgeOracle.process_data ctx enum st
      events).2.processed_events.length = 5000 ∧
    ∀ x ∈ (ChainBridgeOracle.process_data ctx enum st
      events).2.processed_events,
      x ∈ (ChainBridgeOracle.process_events ctx st events []
        st.processed_events).2 := by
  have hps : (ChainBridgeOracle.process_data ctx enum st
      events).2.processed_events =
      ChainBridgeOracle.trim_processed enum
        (ChainBridgeOracle.process_events ctx st events []
          st.processed_events).2 := rfl
  rw [hps]
  constructor
  · exact ChainBridgeOracle.trim_processed_length enum _
      (henum _).length_eq hbig
  · exact ChainBridgeOracle.trim_processed_subset enum _ (henum _)

def stBig : BridgeState Nat :=
  { source_chain := "ethereum", target_chain := "substrate",
    event_types := none, confirmation_blocks := 5,
    last_processed_block := none,
    processed_events := List.range 10001 }

/-- Witness for C3 (amended) at a concrete over-full set. -/
theorem C3_trim_bounds_witness :
    (ChainBridgeOracle.process_data ctxNat (fun l => l) stBig
      []).2.processed_events.length = 5000 ∧
    ∀ x ∈ (ChainBridgeOracle.process_data ctxNat (fun l => l) stBig
      []).2.processed_events,
      x ∈ (ChainBridgeOracle.process_events ctxNat stBig [] []
        stBig.processed_events).2 :=
  C3_trim_bounds ctxNat (fun l => l) stBig [] (fun l => List.Perm.refl l)
    (by simp [ChainBridgeOracle.process_events, stBig])

/-! ### Claim C6 -/

def st6 : BridgeState Nat :=
  { source_chain := "ethereum", target_chain := "substrate",
    event_types := none, confirmation_blocks := 5,
    last_processed_block := none, processed_events := bigIds }

def ev6 : BridgeEvent Nat :=
  { event_id := 10000, shipment_id := "SHIP-6", event_type := "CREATED",
    block_number := 42, transaction_hash := "0xc",
    source_chain := "ethereum", timestamp := "T",
    bridge_id := some "bridge_ethereum_f00d" }

/-- Claim C6 counterexample: with 10000 old ids in the set, processing a
batch with one new event registers it once, but the end-of-run trim
(under the legal enumeration order `enumMoveLast`) evicts the new id;
re-running `process_data` on the same fetch result then registers the
same event a second time — one additional `register_event` call, not
zero. -/
theorem C6_trim_breaks_idempotence_counterexample :
    (ChainBridgeOracle.process_data ctxNat enumMoveLast st6
      [ev6]).1.results.length = 1 ∧
    (ChainBridgeOracle.process_data ctxNat enumMoveLast
      (ChainBridgeOracle.process_data ctxNat enumMoveLast st6 [ev6]).2
      [ev6]).1.results.length = 1 := by
  have hnot6 : ev6.event_id ∉ st6.processed_events := by
    simp [ev6, st6, bigIds]
  have h1 : ChainBridgeOracle.process_events ctxNat st6 [ev6] []
      st6.processed_events =
      ([ChainBridgeOracle.relay_event ctxNat st6 ev6],
        st6.processed_events ++ [ev6.event_id]) := by
    simp only [ChainBridgeOracle.process_events, if_neg hnot6, List.nil_append]
  have hs6 : st6.processed_events = bigIds := by simp only [st6]
  have hid : ev6.event_id = 10000 := by simp only [ev6]
  have htrim : ChainBridgeOracle.trim_processed enumMoveLast
      (st6.processed_events ++ [ev6.event_id]) = bigIds.drop 5000 := by
    rw [hs6, hid]
    exact trim_enumMoveLast_big
  have hst1 : (ChainBridgeOracle.process_data ctxNat enumMoveLast st6
      [ev6]).2 = { st6 with processed_events := bigIds.drop 5000 } := by
    simp only [ChainBridgeOracle.process_data, h1, htrim]
  have hnot2 : ev6.event_id ∉ bigIds.drop 5000 := by
    intro h
    exact absurd (List.mem_of_mem_drop h) (by simp [ev6, bigIds])
  constructor
  · simp only [ChainBridgeOracle.process_data, h1, List.length_singleton]
  · rw [hst1]
    simp [ChainBridgeOracle.process_data, ChainBridgeOracle.process_events,
      hnot2]

/-- Claim C6 (amended): events whose id is already in the
ProcessedEventSet are skipped (a batch of only already-seen events
produces no results and no registrations); and provided the first run
ends with at most 10000 entries (so the trim does not fire), re-running
`process_data` on the same fetch result produces zero additional
`register_event` calls — each registration corresponds to one entry of
`results`, and the second run's `results` is empty. -/
theorem C6_dedup_idempotence {ι : Type} [DecidableEq ι]
    (ctx ctx2 : BridgeCtx ι) (enum enum2 : List ι → List ι)
    (st : BridgeState ι) (events : List (BridgeEvent ι))
    (hsmall : (ChainBridgeOracle.process_events ctx st events []
      st.processed_events).2.length ≤ 10000) :
    ((∀ e ∈ events, e.event_id ∈ st.processed_events) →
      (ChainBridgeOracle.process_data ctx enum st events).1.results = []) ∧
    (ChainBridgeOracle.process_data ctx2 enum2
      (ChainBridgeOracle.process_data ctx enum st events).2
      events).1.results = [] := by
  constructor
  · intro hall
    show (ChainBridgeOracle.process_events ctx st events []
      st.processed_events).1 = []
    rw [ChainBridgeOracle.process_events_all_skip ctx st events []
      st.processed_events hall]
  · have hst1 : (ChainBridgeOracle.process_data ctx enum st
        events).2.processed_events =
        (ChainBridgeOracle.process_events ctx st events []
          st.processed_events).2 := by
      show ChainBridgeOracle.trim_processed enum
        (ChainBridgeOracle.process_events ctx st events []
          st.processed_events).2 = _
      exact ChainBridgeOracle.trim_processed_id _ _ hsmall
    show (ChainBridgeOracle.process_events ctx2
      (ChainBridgeOracle.process_data ctx enum st events).2 events []
      (ChainBridgeOracle.process_data ctx enum st
        events).2.processed_events).1 = []
    rw [hst1, ChainBridgeOracle.process_events_all_skip ctx2 _ events []
      _ (fun e he => ChainBridgeOracle.process_events_ids ctx st events []
        st.processed_events e he)]

def st6w : BridgeState Nat :=
  { source_chain := "ethereum", target_chain := "substrate",
    event_types := none, confirmation_blocks := 5,
    last_processed_block := none, processed_events := [] }

def ev6w : BridgeEvent Nat :=
  { event_id := 1, shipment_id := "SHIP-1", event_type := "CREATED",
    block_number := 3, transaction_hash := "0xd",
    source_chain := "ethereum", timestamp := "T",
    bridge_id := some "bridge_ethereum_f00d" }

/-- Witness for C6 (amended) at a concrete small state: the second run
over the same one-event fetch result yields no results. -/
theorem C6_dedup_idempotence_witness :
    (ChainBridgeOracle.process_data ctxNat (fun l => l)
      (ChainBridgeOracle.process_data ctxNat (fun l => l) st6w [ev6w]).2
      [ev6w]).1.results = [] :=
  (C6_dedup_idempotence ctxNat ctxNat (fun l => l) (fun l => l) st6w [ev6w]
    (by decide)).2

end TracePost
